import Mathlib

/-!
# Verification of `prox_usage.py` (alsyundawy/smart-tools)

A shallow embedding of the Proxmox resource-allocation reporting script
`src/proxmox/prox_usage.py`.  Files are modelled as lists of lines, each
line a list of characters (without the trailing newline); the anchored
literal regexes of the script are modelled as the matching functions they
denote; Python `int` values are Lean `Int`; a run-ending Python exception
is `Option.none`.
-/

set_option autoImplicit false

namespace ProxUsage

/-- A string, modelled as its list of characters. -/
abbrev Chars := List Char

/-- Python's `str.strip()` whitespace test, restricted to the ASCII
whitespace characters that can occur in config lines. -/
def isWs (c : Char) : Bool := c.isWhitespace

/-- Python's `str.strip()`: drop whitespace from both ends. -/
def pyStrip (l : Chars) : Chars :=
  ((l.dropWhile isWs).reverse.dropWhile isWs).reverse

/-- Case-insensitive anchored match: does `line` start with the literal
`pat`, ignoring case?  This is `re.match(pat, line, re.IGNORECASE)` for
the anchored literal patterns (`^name`, `^memory`, ...) the script uses. -/
def matchStartCI : Chars → Chars → Bool
  | [], _ => true
  | _ :: _, [] => false
  | p :: ps, c :: cs => p.toLower == c.toLower && matchStartCI ps cs

/-- `re.split(r"[=:]", line, maxsplit=1)`: split at the first `=` or `:`.
`some (before, after)` when a separator occurs, `none` when the split
would yield a single part. -/
def splitFirstSep : Chars → Option (Chars × Chars)
  | [] => none
  | c :: rest =>
    if c = '=' ∨ c = ':' then some ([], rest)
    else (splitFirstSep rest).map (fun pr => (c :: pr.1, pr.2))

/-- `extract_value(filepath, pattern)`: scan the lines in order; on the
first line matching `pat` (case-insensitively, anchored) that splits into
two parts at `=`/`:`, return the stripped right-hand side.  A matching
line without a separator does not return: the scan continues. -/
def extractValue : List Chars → Chars → Chars
  | [], _ => []
  | line :: rest, pat =>
    if matchStartCI pat line then
      match splitFirstSep line with
      | some (_, rhs) => pyStrip rhs
      | none => extractValue rest pat
    else extractValue rest pat

/-- `extract_line(filepath, pattern)`: the first line matching `pat`
(case-insensitively, anchored), stripped; `""` when none matches. -/
def extractLine : List Chars → Chars → Chars
  | [], _ => []
  | line :: rest, pat =>
    if matchStartCI pat line then pyStrip line else extractLine rest pat

/-- Numeric value of a run of decimal digits (most significant first). -/
def digitsToNat (ds : Chars) : Nat :=
  ds.foldl (fun a c => a * 10 + (c.toNat - 48)) 0

/-- Digit-group tail of Python's base-10 integer literal grammar: after a
leading digit, further digits with single underscores allowed between
digits.  `some n` accumulates into `acc`. -/
def pyIntGo (acc : Nat) : Chars → Option Nat
  | [] => some acc
  | '_' :: c :: rest =>
    if c.isDigit then pyIntGo (acc * 10 + (c.toNat - 48)) rest else none
  | ['_'] => none
  | c :: rest =>
    if c = '_' then none
    else if c.isDigit then pyIntGo (acc * 10 + (c.toNat - 48)) rest else none

/-- A nonempty digit sequence (underscore-separated groups allowed, as in
Python 3) and its value. -/
def pyIntDigits : Chars → Option Nat
  | [] => none
  | c :: rest => if c.isDigit then pyIntGo (c.toNat - 48) rest else none

/-- Python's `int(s)` in base 10: optional surrounding whitespace, an
optional sign, then a nonempty digit sequence; `none` models the
`ValueError` raised on anything else. -/
def pyInt (l : Chars) : Option Int :=
  match pyStrip l with
  | '+' :: rest => (pyIntDigits rest).map (fun n => (n : Int))
  | '-' :: rest => (pyIntDigits rest).map (fun n => -(n : Int))
  | rest => (pyIntDigits rest).map (fun n => (n : Int))

/-- Python's `s or d` for strings: `d` when `s` is empty. -/
def orDefault (v d : Chars) : Chars := if v = [] then d else v

/-- `str.replace(".conf", "")`: remove every (left-to-right,
non-overlapping) occurrence of `.conf`. -/
def removeConf : Chars → Chars
  | '.' :: 'c' :: 'o' :: 'n' :: 'f' :: rest => removeConf rest
  | c :: rest => c :: removeConf rest
  | [] => []

/-- One attempt of `re.search(r",size=([\d]+)([GM])", line)` at the start
of `l`: a literal `,size=`, a maximal nonempty digit run, then `G` or `M`
immediately after (a shorter digit run cannot be followed by `G`/`M`, so
greedy matching without backtracking is exact here). -/
def trySizeAt : Chars → Option (Nat × Char)
  | ',' :: 's' :: 'i' :: 'z' :: 'e' :: '=' :: rest =>
    let ds := rest.takeWhile Char.isDigit
    if ds = [] then none
    else
      match rest.dropWhile Char.isDigit with
      | 'G' :: _ => some (digitsToNat ds, 'G')
      | 'M' :: _ => some (digitsToNat ds, 'M')
      | _ => none
  | _ => none

/-- `re.search(r",size=([\d]+)([GM])", line)`: the leftmost position at
which the pattern matches, with its digit value and unit. -/
def sizeSearch : Chars → Option (Nat × Char)
  | [] => none
  | c :: rest =>
    match trySizeAt (c :: rest) with
    | some r => some r
    | none => sizeSearch rest

/-- The gigabytes a line's `,size=` suffix contributes: the raw value for
unit `G`, floor-division by 1024 for unit `M`, `0` when there is no size
match (mirrors the `if`/`elif` in the script). -/
def sizeContrib (line : Chars) : Nat :=
  match sizeSearch line with
  | some (n, u) => if u = 'G' then n else if u = 'M' then n / 1024 else 0
  | none => 0

/-- The tail of `line` after one of the four storage-bus names
`scsi`/`sata`/`virtio`/`efidisk` at the start of the line (the
alternatives are pairwise non-prefixing, so regex alternation order is
irrelevant). -/
def busHead : Chars → Option Chars
  | 's' :: 'c' :: 's' :: 'i' :: rest => some rest
  | 's' :: 'a' :: 't' :: 'a' :: rest => some rest
  | 'v' :: 'i' :: 'r' :: 't' :: 'i' :: 'o' :: rest => some rest
  | 'e' :: 'f' :: 'i' :: 'd' :: 'i' :: 's' :: 'k' :: rest => some rest
  | _ => none

/-- `re.match(r"^(scsi|sata|virtio|efidisk)\d+:\s*([^\s,]+)", line)`,
returning group 2: bus name, a nonempty digit run, `:`, optional
whitespace, then a maximal nonempty run of non-whitespace non-comma
characters.  Case-sensitive, as in the script. -/
def vmDiskMatch (line : Chars) : Option Chars :=
  match busHead line with
  | none => none
  | some r1 =>
    if r1.takeWhile Char.isDigit = [] then none
    else
      match r1.dropWhile Char.isDigit with
      | ':' :: r2 =>
        let g := (r2.dropWhile isWs).takeWhile (fun c => !isWs c && c != ',')
        if g = [] then none else some g
      | _ => none

/-- `re.match(r"^rootfs:\s*([^\s,]+)", line)`, returning group 1.  This
match is case-sensitive (no `re.IGNORECASE`), unlike the
`extract_line`-level search that found the line. -/
def rootfsDescr : Chars → Option Chars
  | 'r' :: 'o' :: 'o' :: 't' :: 'f' :: 's' :: ':' :: rest =>
    let g := (rest.dropWhile isWs).takeWhile (fun c => !isWs c && c != ',')
    if g = [] then none else some g
  | _ => none

/-- `group.split(":")[0].split(",")[0]`: the storage-location token of a
disk descriptor (the captured group contains no comma, so only the `:`
split can shorten it). -/
def locToken (g : Chars) : Chars := g.takeWhile (fun c => c != ':')

/-- One virtual-machine guest record, as built per config file by
`parse_vm_configs` (the script renders it straight into a Markdown row;
the row is a pure format of these fields). -/
structure VMRec where
  vmid : Chars
  name : Chars
  memMB : Int
  cores : Int
  diskGB : Nat
  locations : List Chars
deriving DecidableEq, Inhabited, Repr

/-- One container guest record, as built per config file by
`parse_lxc_configs` (the script stores it as a dict). -/
structure LXCRec where
  vmid : Chars
  hostname : Chars
  memMB : Int
  cores : Int
  swapMB : Int
  diskGB : Nat
  location : Chars
deriving DecidableEq, Inhabited, Repr

/-- The per-file disk scan of `parse_vm_configs`: every line matching the
bus pattern appends its location token in line order and adds its
`,size=` contribution to the running disk sum. -/
def vmDiskScan : List Chars → Nat × List Chars
  | [] => (0, [])
  | line :: rest =>
    let acc := vmDiskScan rest
    match vmDiskMatch line with
    | some g => (sizeContrib line + acc.1, locToken g :: acc.2)
    | none => acc

/-- The body of `parse_vm_configs` for one config file `fname` with lines
`lines`; `none` models an uncaught `ValueError` from `int(...)`. -/
def perFileVM (fname : Chars) (lines : List Chars) : Option VMRec := do
  let vmid := removeConf fname
  let name := orDefault (extractValue lines "name".data) "(no name)".data
  let memMB ← pyInt (orDefault (extractValue lines "memory".data) "0".data)
  let cores ← pyInt (orDefault (extractValue lines "cores".data) "1".data)
  let scan := vmDiskScan lines
  some ⟨vmid, name, memMB, cores, scan.1, scan.2⟩

/-- The body of `parse_lxc_configs` for one config file: hostname, three
integer fields, and disk data from the single first-matching `rootfs`
line (location from the case-sensitive `^rootfs:` match, size from the
`,size=` search; `0` and `"-"` when there is no such line). -/
def perFileLXC (fname : Chars) (lines : List Chars) : Option LXCRec := do
  let vmid := removeConf fname
  let hostname := orDefault (extractValue lines "hostname".data) "(no name)".data
  let memMB ← pyInt (orDefault (extractValue lines "memory".data) "0".data)
  let cores ← pyInt (orDefault (extractValue lines "cores".data) "1".data)
  let swapMB ← pyInt (orDefault (extractValue lines "swap".data) "0".data)
  let rl := extractLine lines "rootfs".data
  let disk : Nat × Chars :=
    if rl = [] then (0, "-".data)
    else
      let loc := match rootfsDescr rl with
        | some g => locToken g
        | none => "-".data
      (sizeContrib rl, loc)
  some ⟨vmid, hostname, memMB, cores, swapMB, disk.1, disk.2⟩

/-- A guest config file as enumerated from the config directory: the file
name (basename, with extension) and its lines. -/
abbrev CfgFile := Chars × List Chars

/-- `parse_vm_configs()` over a directory listing: one record per file
plus the running totals `(records, total_vm_mem, total_vm_disk,
total_vm_vcpus)`; `none` when any file aborts the run. -/
def parse_vm_configs : List CfgFile → Option (List VMRec × Int × Nat × Int)
  | [] => some ([], 0, 0, 0)
  | (fn, ls) :: rest => do
    let r ← perFileVM fn ls
    let t ← parse_vm_configs rest
    some (r :: t.1, r.memMB + t.2.1, r.diskGB + t.2.2.1, r.cores + t.2.2.2)

/-- `parse_lxc_configs()` over a directory listing: `(records,
total_lxc_mem, total_lxc_disk, total_lxc_cores)`. -/
def parse_lxc_configs : List CfgFile → Option (List LXCRec × Int × Nat × Int)
  | [] => some ([], 0, 0, 0)
  | (fn, ls) :: rest => do
    let r ← perFileLXC fn ls
    let t ← parse_lxc_configs rest
    some (r :: t.1, r.memMB + t.2.1, r.diskGB + t.2.2.1, r.cores + t.2.2.2)

/-- The loop of `parse_args`: consume `-o`/`--outfile` plus a following
value, overwriting `outfile`; any other shape (including a trailing flag
with no value) prints usage and exits, modelled as `none`. -/
def parseArgsGo (outfile : Chars) : List Chars → Option Chars
  | [] => some outfile
  | a :: b :: rest =>
    if a = "-o".data ∨ a = "--outfile".data then parseArgsGo b rest else none
  | [_] => none

/-- `parse_args(args)`: the resulting `outfile` string (`""` when no flag
was given), or `none` for the usage-and-exit path. -/
def parse_args (args : List Chars) : Option Chars := parseArgsGo [] args

/-- The aggregation performed at the top of `print_output`: grand totals
and the CPU allocation percentage
`(total_alloc_cpu / host_cpu_cores) * 100 if host_cpu_cores else 0`.
Python's float arithmetic is modelled exactly, as rationals. -/
def aggregate (total_vm_mem : Int) (total_vm_disk : Nat) (total_vm_vcpus : Int)
    (total_lxc_mem : Int) (total_lxc_disk : Nat) (total_lxc_cores : Int)
    (host_cpu_cores : Nat) : Int × Nat × Int × ℚ :=
  let total_alloc_mem := total_vm_mem + total_lxc_mem
  let total_alloc_disk := total_vm_disk + total_lxc_disk
  let total_alloc_cpu := total_vm_vcpus + total_lxc_cores
  let cpu_percentage : ℚ :=
    if host_cpu_cores ≠ 0 then ((total_alloc_cpu : ℚ) / (host_cpu_cores : ℚ)) * 100
    else 0
  (total_alloc_mem, total_alloc_disk, total_alloc_cpu, cpu_percentage)

/-- A rational rounded to two decimal places (the precision of the
`{:.2f}` display of the CPU percentage). -/
def roundTo2dp (q : ℚ) : ℚ := (round (q * 100) : ℚ) / 100

/-- The process output state of `main`: lines printed to the terminal,
lines written into the report file, whether `sys.stdout` currently points
at the report file, and whether that file is still open. -/
structure OutState where
  termLines : List Chars
  fileLines : List Chars
  stdoutIsFile : Bool
  fileOpen : Bool
deriving DecidableEq, Repr

/-- `print(line)`: one line to whatever `sys.stdout` designates; `none`
models the `ValueError: I/O operation on closed file` raised when
`sys.stdout` is a closed file object. -/
def pyPrint (s : OutState) (line : Chars) : Option OutState :=
  if s.stdoutIsFile then
    if s.fileOpen then some { s with fileLines := s.fileLines ++ [line] }
    else none
  else some { s with termLines := s.termLines ++ [line] }

/-- Print a sequence of lines (the report body emitted by
`print_output`). -/
def printAll (s : OutState) : List Chars → Option OutState
  | [] => some s
  | l :: rest => do
    let s1 ← pyPrint s l
    printAll s1 rest

/-- `main`'s output phase, for a given parsed `outfile` and the report
lines `print_output` would emit.  With an outfile the script opens the
file, rebinds `sys.stdout` to it, prints the report, leaves the `with`
block (closing the file without restoring `sys.stdout`), then prints the
confirmation line.  Returns the final output state and whether the run
ended with an uncaught exception. -/
def mainOutput (outfile : Chars) (report : List Chars) : OutState × Bool :=
  if outfile ≠ [] then
    let s0 : OutState := ⟨[], [], true, true⟩
    match printAll s0 report with
    | some s1 =>
      let s2 := { s1 with fileOpen := false }
      match pyPrint s2 ("Saved report to ".data ++ outfile) with
      | some s3 => (s3, false)
      | none => (s2, true)
    | none => (s0, true)
  else
    let s0 : OutState := ⟨[], [], false, true⟩
    match printAll s0 report with
    | some s1 => (s1, false)
    | none => (s0, true)

/-- `main`'s argument handling plus output phase: `none` is the
usage-message exit of `parse_args`. -/
def runMain (args : List Chars) (report : List Chars) : Option (OutState × Bool) :=
  (parse_args args).map (fun o => mainOutput o report)

/-- Modelled from the spec, amended for C3: the value returned by the
field extractor is determined by the first line that both matches the
pattern and splits into two parts at `=`/`:`; matching lines without a
separator are skipped, and the empty string is returned only when no
matching line splits. -/
def extractValueAmended (lines : List Chars) (pat : Chars) : Chars :=
  match lines.filter (fun l => matchStartCI pat l && (splitFirstSep l).isSome) with
  | [] => []
  | l :: _ =>
    match splitFirstSep l with
    | some pr => pyStrip pr.2
    | none => []

/-- A sample VM config file: the end-to-end scenario of the spec. -/
def vmFileA : CfgFile :=
  ("100.conf".data,
   ["name=web1".data, "memory=2048".data, "cores=2".data,
    "scsi0: local-lvm:vm-100-disk-0,size=32G".data])

/-- The record `parse_vm_configs` builds from `vmFileA`. -/
def vmRecA : VMRec := ⟨"100".data, "web1".data, 2048, 2, 32, ["local-lvm".data]⟩

/-- A second sample VM config file, without disk lines. -/
def vmFileB : CfgFile :=
  ("101.conf".data, ["name=db1".data, "memory=512".data, "cores=1".data])

/-- The record `parse_vm_configs` builds from `vmFileB`. -/
def vmRecB : VMRec := ⟨"101".data, "db1".data, 512, 1, 0, []⟩

/-- A sample container config file: the end-to-end scenario of the spec. -/
def lxcFileA : CfgFile :=
  ("200.conf".data,
   ["hostname: ct1".data, "memory: 512".data, "cores: 1".data, "swap: 512".data,
    "rootfs: local-zfs:subvol-101-disk-0,size=8G".data])

/-- The record `parse_lxc_configs` builds from `lxcFileA`. -/
def lxcRecA : LXCRec := ⟨"200".data, "ct1".data, 512, 1, 512, 8, "local-zfs".data⟩

/-- A second sample container config file, with no rootfs line. -/
def lxcFileB : CfgFile :=
  ("201.conf".data, ["hostname: ct2".data, "memory: 256".data])

/-- The record `parse_lxc_configs` builds from `lxcFileB`. -/
def lxcRecB : LXCRec := ⟨"201".data, "ct2".data, 256, 1, 0, 0, "-".data⟩

/-- C8: a single VM config file with `name=web1`, `memory=2048`,
`cores=2` and the disk line `scsi0: local-lvm:vm-100-disk-0,size=32G`
yields the record `("100", "web1", 2048 MB, 2 vCPUs, 32 GB,
["local-lvm"])` and parser totals memory `2048`, disk `32`, vcpu `2`. -/
theorem vm_end_to_end_scenario :
    parse_vm_configs [vmFileA] = some ([vmRecA], 2048, 32, 2) := by decide

/-- C1 (code bug): invoked with `-o report.md`, the report lines do land
in the file, but the confirmation print targets `sys.stdout`, which was
rebound to the report file and never restored; the file is closed when
the `with` block ends, so the print raises `ValueError` (crash flag
`true`) and the terminal receives nothing — not the promised confirmation
line.  With no flag, the report goes to the terminal, nothing is written
to a file, and no confirmation line or crash occurs. -/
theorem outfile_confirmation_crash :
    runMain ["-o".data, "report.md".data] ["A".data, "B".data] =
      some (⟨[], ["A".data, "B".data], true, false⟩, true) ∧
    runMain [] ["A".data, "B".data] =
      some (⟨["A".data, "B".data], [], false, true⟩, false) := by decide

/-- C3 (counterexample): in the file `["memory", "memory: 512"]` the
first line matching the pattern `memory` splits into fewer than two
parts, so the claim predicts the empty string; `extract_value` instead
skips that line and returns `512` from the second line. -/
theorem extract_value_skips_separatorless_line :
    matchStartCI "memory".data "memory".data = true ∧
    splitFirstSep "memory".data = none ∧
    extractValue ["memory".data, "memory: 512".data] "memory".data = "512".data ∧
    "512".data ≠ ([] : Chars) := by decide

/-- C3 (amended): `extract_value` returns the trimmed right-hand side of
the first line that both matches the pattern (case-insensitively, at the
start) and splits into two parts at the first `=`/`:`; matching lines
without a separator are skipped, and the empty string is returned exactly
when no matching line splits. -/
theorem extract_value_first_splitting_match (lines : List Chars) (pat : Chars) :
    extractValue lines pat = extractValueAmended lines pat := by
  induction lines with
  | nil => rfl
  | cons l rest ih =>
    cases hm : matchStartCI pat l with
    | true =>
      cases hs : splitFirstSep l with
      | none => simpa [extractValue, extractValueAmended, hm, hs] using ih
      | some pr => simp [extractValue, extractValueAmended, hm, hs]
    | false => simpa [extractValue, extractValueAmended, hm] using ih

/-- The record a (parseable) VM config file determines. -/
def vmRecOf (f : CfgFile) : VMRec := (perFileVM f.1 f.2).getD default

/-- The record a (parseable) container config file determines. -/
def lxcRecOf (f : CfgFile) : LXCRec := (perFileLXC f.1 f.2).getD default

theorem parse_vm_configs_char (fs : List CfgFile)
    (h : ∀ f ∈ fs, (perFileVM f.1 f.2).isSome = true) :
    parse_vm_configs fs = some (fs.map vmRecOf,
      (fs.map (fun f => (vmRecOf f).memMB)).sum,
      (fs.map (fun f => (vmRecOf f).diskGB)).sum,
      (fs.map (fun f => (vmRecOf f).cores)).sum) := by
  induction fs with
  | nil => rfl
  | cons f rest ih =>
    obtain ⟨r, hr⟩ := Option.isSome_iff_exists.mp (h f (by simp))
    have hrest := ih (fun g hg => h g (by simp [hg]))
    simp [parse_vm_configs, hr, hrest, vmRecOf]

theorem parse_lxc_configs_char (fs : List CfgFile)
    (h : ∀ f ∈ fs, (perFileLXC f.1 f.2).isSome = true) :
    parse_lxc_configs fs = some (fs.map lxcRecOf,
      (fs.map (fun f => (lxcRecOf f).memMB)).sum,
      (fs.map (fun f => (lxcRecOf f).diskGB)).sum,
      (fs.map (fun f => (lxcRecOf f).cores)).sum) := by
  induction fs with
  | nil => rfl
  | cons f rest ih =>
    obtain ⟨r, hr⟩ := Option.isSome_iff_exists.mp (h f (by simp))
    have hrest := ih (fun g hg => h g (by simp [hg]))
    simp [parse_lxc_configs, hr, hrest, lxcRecOf]

theorem parse_vm_configs_all_some (fs : List CfgFile)
    {x : List VMRec × Int × Nat × Int} (h : parse_vm_configs fs = some x) :
    ∀ f ∈ fs, (perFileVM f.1 f.2).isSome = true := by
  induction fs generalizing x with
  | nil => simp
  | cons f rest ih =>
    cases hp : perFileVM f.1 f.2 with
    | none => simp [parse_vm_configs, hp] at h
    | some r =>
      cases hq : parse_vm_configs rest with
      | none => simp [parse_vm_configs, hp, hq] at h
      | some t =>
        intro g hg
        rcases List.mem_cons.mp hg with hg | hg
        · simp [hg, hp]
        · exact ih hq g hg

theorem parse_lxc_configs_all_some (fs : List CfgFile)
    {x : List LXCRec × Int × Nat × Int} (h : parse_lxc_configs fs = some x) :
    ∀ f ∈ fs, (perFileLXC f.1 f.2).isSome = true := by
  induction fs generalizing x with
  | nil => simp
  | cons f rest ih =>
    cases hp : perFileLXC f.1 f.2 with
    | none => simp [parse_lxc_configs, hp] at h
    | some r =>
      cases hq : parse_lxc_configs rest with
      | none => simp [parse_lxc_configs, hp, hq] at h
      | some t =>
        intro g hg
        rcases List.mem_cons.mp hg with hg | hg
        · simp [hg, hp]
        · exact ih hq g hg

/-- C2: whenever a guest-config parser succeeds, each returned total
(memory, disk, vCPU/cores) is the sum of the corresponding field over the
returned records; and the totals are independent of file enumeration
order: a permuted file list yields the same totals (with permuted
records). -/
theorem totals_are_order_independent_sums :
    (∀ fs recs m d c, parse_vm_configs fs = some (recs, m, d, c) →
      m = (recs.map VMRec.memMB).sum ∧ d = (recs.map VMRec.diskGB).sum ∧
      c = (recs.map VMRec.cores).sum) ∧
    (∀ fs recs m d c, parse_lxc_configs fs = some (recs, m, d, c) →
      m = (recs.map LXCRec.memMB).sum ∧ d = (recs.map LXCRec.diskGB).sum ∧
      c = (recs.map LXCRec.cores).sum) ∧
    (∀ fs fs' recs m d c, List.Perm fs fs' →
      parse_vm_configs fs = some (recs, m, d, c) →
      ∃ recs', parse_vm_configs fs' = some (recs', m, d, c) ∧
        List.Perm recs recs') ∧
    (∀ fs fs' recs m d c, List.Perm fs fs' →
      parse_lxc_configs fs = some (recs, m, d, c) →
      ∃ recs', parse_lxc_configs fs' = some (recs', m, d, c) ∧
        List.Perm recs recs') := by
  refine ⟨?_, ?_, ?_, ?_⟩
  · intro fs recs m d c h
    have hc := parse_vm_configs_char fs (parse_vm_configs_all_some fs h)
    rw [h] at hc
    obtain ⟨h1, h2, h3, h4⟩ := by simpa [Prod.ext_iff] using hc
    subst h1; subst h2; subst h3; subst h4
    simp only [List.map_map]
    exact ⟨rfl, rfl, rfl⟩
  · intro fs recs m d c h
    have hc := parse_lxc_configs_char fs (parse_lxc_configs_all_some fs h)
    rw [h] at hc
    obtain ⟨h1, h2, h3, h4⟩ := by simpa [Prod.ext_iff] using hc
    subst h1; subst h2; subst h3; subst h4
    simp only [List.map_map]
    exact ⟨rfl, rfl, rfl⟩
  · intro fs fs' recs m d c hperm h
    have hall := parse_vm_configs_all_some fs h
    have hall' : ∀ f ∈ fs', (perFileVM f.1 f.2).isSome = true :=
      fun f hf => hall f (hperm.mem_iff.mpr hf)
    have hc := parse_vm_configs_char fs hall
    have hc' := parse_vm_configs_char fs' hall'
    rw [h] at hc
    obtain ⟨h1, h2, h3, h4⟩ := by simpa [Prod.ext_iff] using hc
    refine ⟨fs'.map vmRecOf, ?_, ?_⟩
    · rw [hc', h2, h3, h4,
        (hperm.map (fun f => (vmRecOf f).memMB)).sum_eq,
        (hperm.map (fun f => (vmRecOf f).diskGB)).sum_eq,
        (hperm.map (fun f => (vmRecOf f).cores)).sum_eq]
    · rw [h1]; exact hperm.map vmRecOf
  · intro fs fs' recs m d c hperm h
    have hall := parse_lxc_configs_all_some fs h
    have hall' : ∀ f ∈ fs', (perFileLXC f.1 f.2).isSome = true :=
      fun f hf => hall f (hperm.mem_iff.mpr hf)
    have hc := parse_lxc_configs_char fs hall
    have hc' := parse_lxc_configs_char fs' hall'
    rw [h] at hc
    obtain ⟨h1, h2, h3, h4⟩ := by simpa [Prod.ext_iff] using hc
    refine ⟨fs'.map lxcRecOf, ?_, ?_⟩
    · rw [hc', h2, h3, h4,
        (hperm.map (fun f => (lxcRecOf f).memMB)).sum_eq,
        (hperm.map (fun f => (lxcRecOf f).diskGB)).sum_eq,
        (hperm.map (fun f => (lxcRecOf f).cores)).sum_eq]
    · rw [h1]; exact hperm.map lxcRecOf

/-- Witness for C2 at concrete two-file directories (including a swapped
enumeration order). -/
theorem totals_are_order_independent_sums_witness :
    ((2560 : Int) = ([vmRecA, vmRecB].map VMRec.memMB).sum ∧
     (32 : Nat) = ([vmRecA, vmRecB].map VMRec.diskGB).sum ∧
     (3 : Int) = ([vmRecA, vmRecB].map VMRec.cores).sum) ∧
    ((768 : Int) = ([lxcRecA, lxcRecB].map LXCRec.memMB).sum ∧
     (8 : Nat) = ([lxcRecA, lxcRecB].map LXCRec.diskGB).sum ∧
     (2 : Int) = ([lxcRecA, lxcRecB].map LXCRec.cores).sum) ∧
    (∃ recs', parse_vm_configs [vmFileB, vmFileA] = some (recs', 2560, 32, 3) ∧
       List.Perm [vmRecA, vmRecB] recs') ∧
    (∃ recs', parse_lxc_configs [lxcFileB, lxcFileA] = some (recs', 768, 8, 2) ∧
       List.Perm [lxcRecA, lxcRecB] recs') := by
  refine ⟨?_, ?_, ?_, ?_⟩
  · exact totals_are_order_independent_sums.1 [vmFileA, vmFileB]
      [vmRecA, vmRecB] 2560 32 3 (by decide)
  · exact totals_are_order_independent_sums.2.1 [lxcFileA, lxcFileB]
      [lxcRecA, lxcRecB] 768 8 2 (by decide)
  · exact totals_are_order_independent_sums.2.2.1 [vmFileA, vmFileB]
      [vmFileB, vmFileA] [vmRecA, vmRecB] 2560 32 3
      (List.Perm.swap vmFileB vmFileA []) (by decide)
  · exact totals_are_order_independent_sums.2.2.2 [lxcFileA, lxcFileB]
      [lxcFileB, lxcFileA] [lxcRecA, lxcRecB] 768 8 2
      (List.Perm.swap lxcFileB lxcFileA []) (by decide)

theorem vmDiskScan_of_no_disk_line (L : List Chars)
    (h : ∀ l ∈ L, vmDiskMatch l = none) : vmDiskScan L = (0, []) := by
  induction L with
  | nil => rfl
  | cons l rest ih =>
    have hl := h l (by simp)
    have hrest := ih (fun g hg => h g (by simp [hg]))
    simp [vmDiskScan, hl, hrest]

/-- A VM config file in which only the cores field (and disk lines) are
absent among the optional fields. -/
def vmFileC : CfgFile := ("102.conf".data, ["memory=512".data])

/-- The record `parse_vm_configs` builds from `vmFileC`. -/
def vmRecC : VMRec := ⟨"102".data, "(no name)".data, 512, 1, 0, []⟩

/-- A container config file in which only swap and the rootfs line are
absent among the optional fields. -/
def lxcFileC : CfgFile :=
  ("202.conf".data, ["memory: 512".data, "cores: 2".data])

/-- The record `parse_lxc_configs` builds from `lxcFileC`. -/
def lxcRecC : LXCRec := ⟨"202".data, "(no name)".data, 512, 2, 0, 0, "-".data⟩

/-- C4, per field: whenever a guest-config file parses, each absent
optional field carries its documented fallback in the record (memory `0`,
cores `1`, swap `0`, and disk `0` with location `"-"` when no disk /
rootfs line matches) — regardless of which other fields are present; and
a file's parse fails exactly when some numeric field is present with a
non-empty extracted value that does not parse as an integer, so the
absence of a field is never an error. -/
theorem absent_fields_use_fallbacks :
    (∀ fn L r, perFileVM fn L = some r →
      (extractValue L "memory".data = [] → r.memMB = 0) ∧
      (extractValue L "cores".data = [] → r.cores = 1) ∧
      ((∀ l ∈ L, vmDiskMatch l = none) → r.diskGB = 0)) ∧
    (∀ fn L, perFileVM fn L = none ↔
      ((extractValue L "memory".data ≠ [] ∧
        pyInt (extractValue L "memory".data) = none) ∨
       (extractValue L "cores".data ≠ [] ∧
        pyInt (extractValue L "cores".data) = none))) ∧
    (∀ fn L r, perFileLXC fn L = some r →
      (extractValue L "memory".data = [] → r.memMB = 0) ∧
      (extractValue L "cores".data = [] → r.cores = 1) ∧
      (extractValue L "swap".data = [] → r.swapMB = 0) ∧
      (extractLine L "rootfs".data = [] →
        r.diskGB = 0 ∧ r.location = "-".data)) ∧
    (∀ fn L, perFileLXC fn L = none ↔
      ((extractValue L "memory".data ≠ [] ∧
        pyInt (extractValue L "memory".data) = none) ∨
       (extractValue L "cores".data ≠ [] ∧
        pyInt (extractValue L "cores".data) = none) ∨
       (extractValue L "swap".data ≠ [] ∧
        pyInt (extractValue L "swap".data) = none))) := by
  refine ⟨?_, ?_, ?_, ?_⟩
  · intro fn L r h
    rcases hm : pyInt (orDefault (extractValue L "memory".data) "0".data) with _ | mv
    · simp [perFileVM, hm] at h
    rcases hc : pyInt (orDefault (extractValue L "cores".data) "1".data) with _ | cv
    · simp [perFileVM, hm, hc] at h
    simp [perFileVM, hm, hc] at h
    subst h
    refine ⟨?_, ?_, ?_⟩
    · intro habs
      rw [habs] at hm
      have h0 : pyInt (orDefault [] "0".data) = some 0 := by decide
      rw [h0] at hm
      exact (Option.some.inj hm).symm
    · intro habs
      rw [habs] at hc
      have h1 : pyInt (orDefault [] "1".data) = some 1 := by decide
      rw [h1] at hc
      exact (Option.some.inj hc).symm
    · intro hd
      show (vmDiskScan L).1 = 0
      rw [vmDiskScan_of_no_disk_line L hd]
  · intro fn L
    constructor
    · intro h
      rcases hm : pyInt (orDefault (extractValue L "memory".data) "0".data) with _ | mv
      · left
        by_cases habs : extractValue L "memory".data = []
        · rw [habs] at hm; exact absurd hm (by decide)
        · exact ⟨habs, by simpa [orDefault, habs] using hm⟩
      rcases hc : pyInt (orDefault (extractValue L "cores".data) "1".data) with _ | cv
      · right
        by_cases habs : extractValue L "cores".data = []
        · rw [habs] at hc; exact absurd hc (by decide)
        · exact ⟨habs, by simpa [orDefault, habs] using hc⟩
      · exfalso; simp [perFileVM, hm, hc] at h
    · intro hd
      rcases hd with ⟨h1, h2⟩ | ⟨h1, h2⟩
      · simp [perFileVM, orDefault, h1, h2]
      · rcases hm : pyInt (orDefault (extractValue L "memory".data) "0".data) with _ | mv
        · simp [perFileVM, hm]
        · simp [perFileVM, hm, orDefault, h1, h2]
  · intro fn L r h
    rcases hm : pyInt (orDefault (extractValue L "memory".data) "0".data) with _ | mv
    · simp [perFileLXC, hm] at h
    rcases hc : pyInt (orDefault (extractValue L "cores".data) "1".data) with _ | cv
    · simp [perFileLXC, hm, hc] at h
    rcases hs : pyInt (orDefault (extractValue L "swap".data) "0".data) with _ | sv
    · simp [perFileLXC, hm, hc, hs] at h
    simp [perFileLXC, hm, hc, hs] at h
    subst h
    refine ⟨?_, ?_, ?_, ?_⟩
    · intro habs
      rw [habs] at hm
      have h0 : pyInt (orDefault [] "0".data) = some 0 := by decide
      rw [h0] at hm
      exact (Option.some.inj hm).symm
    · intro habs
      rw [habs] at hc
      have h1 : pyInt (orDefault [] "1".data) = some 1 := by decide
      rw [h1] at hc
      exact (Option.some.inj hc).symm
    · intro habs
      rw [habs] at hs
      have h0 : pyInt (orDefault [] "0".data) = some 0 := by decide
      rw [h0] at hs
      exact (Option.some.inj hs).symm
    · intro hrl
      constructor
      · show (if extractLine L "rootfs".data = [] then ((0 : Nat), "-".data)
          else _).1 = 0
        rw [if_pos hrl]
      · show (if extractLine L "rootfs".data = [] then ((0 : Nat), "-".data)
          else _).2 = "-".data
        rw [if_pos hrl]
  · intro fn L
    constructor
    · intro h
      rcases hm : pyInt (orDefault (extractValue L "memory".data) "0".data) with _ | mv
      · left
        by_cases habs : extractValue L "memory".data = []
        · rw [habs] at hm; exact absurd hm (by decide)
        · exact ⟨habs, by simpa [orDefault, habs] using hm⟩
      rcases hc : pyInt (orDefault (extractValue L "cores".data) "1".data) with _ | cv
      · right; left
        by_cases habs : extractValue L "cores".data = []
        · rw [habs] at hc; exact absurd hc (by decide)
        · exact ⟨habs, by simpa [orDefault, habs] using hc⟩
      rcases hs : pyInt (orDefault (extractValue L "swap".data) "0".data) with _ | sv
      · right; right
        by_cases habs : extractValue L "swap".data = []
        · rw [habs] at hs; exact absurd hs (by decide)
        · exact ⟨habs, by simpa [orDefault, habs] using hs⟩
      · exfalso; simp [perFileLXC, hm, hc, hs] at h
    · intro hd
      rcases hd with ⟨h1, h2⟩ | ⟨h1, h2⟩ | ⟨h1, h2⟩
      · simp [perFileLXC, orDefault, h1, h2]
      · rcases hm : pyInt (orDefault (extractValue L "memory".data) "0".data) with _ | mv
        · simp [perFileLXC, hm]
        · simp [perFileLXC, hm, orDefault, h1, h2]
      · rcases hm : pyInt (orDefault (extractValue L "memory".data) "0".data) with _ | mv
        · simp [perFileLXC, hm]
        rcases hc : pyInt (orDefault (extractValue L "cores".data) "1".data) with _ | cv
        · simp [perFileLXC, hm, hc]
        · simp [perFileLXC, hm, hc, orDefault, h1, h2]

/-- Witness for C4: a VM file where only cores is absent (memory
present), a container file where only swap and rootfs are absent, and
the failure characterization applied at a present-but-malformed and at a
fields-all-absent file. -/
theorem absent_fields_use_fallbacks_witness :
    vmRecC.cores = 1 ∧ vmRecC.diskGB = 0 ∧
    lxcRecC.swapMB = 0 ∧ (lxcRecC.diskGB = 0 ∧ lxcRecC.location = "-".data) ∧
    ((extractValue ["memory: abc".data] "memory".data ≠ [] ∧
      pyInt (extractValue ["memory: abc".data] "memory".data) = none) ∨
     (extractValue ["memory: abc".data] "cores".data ≠ [] ∧
      pyInt (extractValue ["memory: abc".data] "cores".data) = none)) ∧
    perFileLXC "300.conf".data [] ≠ none := by
  refine ⟨?_, ?_, ?_, ?_, ?_, ?_⟩
  · exact (absent_fields_use_fallbacks.1 vmFileC.1 vmFileC.2 vmRecC
      (by decide)).2.1 (by decide)
  · exact (absent_fields_use_fallbacks.1 vmFileC.1 vmFileC.2 vmRecC
      (by decide)).2.2 (by decide)
  · exact (absent_fields_use_fallbacks.2.2.1 lxcFileC.1 lxcFileC.2 lxcRecC
      (by decide)).2.2.1 (by decide)
  · exact (absent_fields_use_fallbacks.2.2.1 lxcFileC.1 lxcFileC.2 lxcRecC
      (by decide)).2.2.2 (by decide)
  · exact (absent_fields_use_fallbacks.2.1 "100.conf".data
      ["memory: abc".data]).mp (by decide)
  · intro h
    rcases (absent_fields_use_fallbacks.2.2.2 "300.conf".data []).mp h with
      ⟨h1, _⟩ | ⟨h1, _⟩ | ⟨h1, _⟩ <;> exact h1 (by decide)

/-- C5: disk-size parsing is unit-consistent.  A `,size=<n>G` match
contributes `n` gigabytes and a `,size=<n>M` match contributes
`n / 1024` (floor) gigabytes, so `size=2048M` and `size=2G` give the same
2-GB disk total for the same guest. -/
theorem size_unit_consistency :
    (∀ l n, sizeSearch l = some (n, 'G') → sizeContrib l = n) ∧
    (∀ l n, sizeSearch l = some (n, 'M') → sizeContrib l = n / 1024) ∧
    (∃ r₁ r₂,
      perFileVM "100.conf".data ["scsi0: local-lvm:vm-100-disk-0,size=2048M".data]
        = some r₁ ∧
      perFileVM "100.conf".data ["scsi0: local-lvm:vm-100-disk-0,size=2G".data]
        = some r₂ ∧
      r₁.diskGB = r₂.diskGB ∧ r₁.diskGB = 2) := by
  refine ⟨?_, ?_, ?_⟩
  · intro l n h; simp [sizeContrib, h]
  · intro l n h; simp [sizeContrib, h]
  · exact ⟨⟨"100".data, "(no name)".data, 0, 1, 2, ["local-lvm".data]⟩,
      ⟨"100".data, "(no name)".data, 0, 1, 2, ["local-lvm".data]⟩,
      by decide, by decide, by decide, by decide⟩

/-- Witness for C5 at a concrete disk line of each unit. -/
theorem size_unit_consistency_witness :
    sizeContrib ",size=2G".data = 2 ∧ sizeContrib ",size=2048M".data = 2048 / 1024 :=
  ⟨size_unit_consistency.1 ",size=2G".data 2 (by decide),
   size_unit_consistency.2.1 ",size=2048M".data 2048 (by decide)⟩

/-- C6: the CPU allocation percentage computed in `print_output` is `0`
when the host core count is `0`, and otherwise equals
`(totalVMvcpus + totalLXCcores) / hostCores * 100`; rounding it to the
two decimal places of the `{:.2f}` display moves it by at most `1/200`.
(Python's float arithmetic is modelled as exact rational arithmetic.) -/
theorem cpu_allocation_percentage (tvm : Int) (tvd : Nat) (tvc : Int)
    (tlm : Int) (tld : Nat) (tlc : Int) (host : Nat) :
    (host = 0 → (aggregate tvm tvd tvc tlm tld tlc host).2.2.2 = 0) ∧
    (host ≠ 0 →
      (aggregate tvm tvd tvc tlm tld tlc host).2.2.2 =
        (((tvc : ℚ) + (tlc : ℚ)) / (host : ℚ)) * 100) ∧
    |roundTo2dp ((aggregate tvm tvd tvc tlm tld tlc host).2.2.2) -
        (aggregate tvm tvd tvc tlm tld tlc host).2.2.2| ≤ 1 / 200 := by
  refine ⟨?_, ?_, ?_⟩
  · intro h; simp [aggregate, h]
  · intro h
    simp only [aggregate, if_pos h]
    push_cast
    ring
  · generalize (aggregate tvm tvd tvc tlm tld tlc host).2.2.2 = q
    have hq : roundTo2dp q - q = ((round (q * 100) : ℚ) - q * 100) / 100 := by
      unfold roundTo2dp; ring
    rw [hq, abs_div, abs_of_pos (by norm_num : (0 : ℚ) < 100), abs_sub_comm]
    have h := abs_sub_round (q * 100)
    linarith

/-- Witness for C6: zero host cores gives `0`; eight allocated vCPUs on
eight host cores give `100`. -/
theorem cpu_allocation_percentage_witness :
    (aggregate 0 0 4 0 0 4 0).2.2.2 = 0 ∧
    (aggregate 0 0 4 0 0 4 8).2.2.2 = 100 := by
  constructor
  · exact (cpu_allocation_percentage 0 0 4 0 0 4 0).1 rfl
  · have h := (cpu_allocation_percentage 0 0 4 0 0 4 8).2.1 (by norm_num)
    rw [h]; norm_num

/-- C7 (counterexample): the line `Rootfs: local-zfs:subvol-101-disk-0,size=8G`
is found as the root-filesystem line (the line-level search is
case-insensitive) and its descriptor's prefix before `:` is `local-zfs`,
but the record's location is `"-"`, because the location regex
`^rootfs:\s*([^\s,]+)` is case-sensitive and rejects `Rootfs:`; the size
suffix is still parsed (disk 8 GB). -/
theorem rootfs_location_case_counterexample :
    extractLine ["Rootfs: local-zfs:subvol-101-disk-0,size=8G".data]
      "rootfs".data ≠ [] ∧
    locToken "local-zfs:subvol-101-disk-0,size=8G".data = "local-zfs".data ∧
    perFileLXC "101.conf".data
      ["Rootfs: local-zfs:subvol-101-disk-0,size=8G".data] =
      some ⟨"101".data, "(no name)".data, 0, 1, 0, 8, "-".data⟩ ∧
    ("-".data : Chars) ≠ "local-zfs".data := by decide

/-- C7 (amended): container disk data comes from the single first
(case-insensitively) matching root-filesystem line: its `,size=` suffix
is parsed exactly as in the VM parser, and its location is the prefix of
the descriptor before `:`/`,` when the line matches the case-sensitive
pattern `^rootfs:\s*([^\s,]+)`, and `"-"` otherwise; with no
root-filesystem line at all, disk is `0` and location `"-"`. -/
theorem rootfs_line_determines_disk (fn : Chars) (L : List Chars) (r : LXCRec)
    (h : perFileLXC fn L = some r) :
    (extractLine L "rootfs".data = [] → r.diskGB = 0 ∧ r.location = "-".data) ∧
    (extractLine L "rootfs".data ≠ [] →
      r.diskGB = sizeContrib (extractLine L "rootfs".data) ∧
      (∀ g, rootfsDescr (extractLine L "rootfs".data) = some g →
        r.location = locToken g) ∧
      (rootfsDescr (extractLine L "rootfs".data) = none →
        r.location = "-".data)) := by
  rcases hm : pyInt (orDefault (extractValue L "memory".data) "0".data) with _ | mv
  · simp [perFileLXC, hm] at h
  rcases hc : pyInt (orDefault (extractValue L "cores".data) "1".data) with _ | cv
  · simp [perFileLXC, hm, hc] at h
  rcases hs : pyInt (orDefault (extractValue L "swap".data) "0".data) with _ | sv
  · simp [perFileLXC, hm, hc, hs] at h
  simp [perFileLXC, hm, hc, hs] at h
  subst h
  by_cases hrl : extractLine L "rootfs".data = []
  · exact ⟨fun _ => ⟨by simp [hrl], by simp [hrl]⟩, fun hne => absurd hrl hne⟩
  · refine ⟨fun heq => absurd heq hrl, fun _ => ⟨by simp [hrl], ?_, ?_⟩⟩
    · intro g hg; simp [hrl, hg]
    · intro h0; simp [hrl, h0]

/-- Witness for C7 at the container end-to-end config file. -/
theorem rootfs_line_determines_disk_witness :
    lxcRecA.diskGB = sizeContrib (extractLine lxcFileA.2 "rootfs".data) ∧
    lxcRecA.location = locToken "local-zfs:subvol-101-disk-0".data := by
  have h := (rootfs_line_determines_disk "200.conf".data lxcFileA.2 lxcRecA
    (by decide)).2 (by decide)
  exact ⟨h.1, h.2.1 "local-zfs:subvol-101-disk-0".data (by decide)⟩

/-- C9 (counterexample): in the file `["memory:"]` a memory line is
present and its extracted value (the empty string) does not parse as an
integer, yet parsing does not raise an error — the falsy empty string is
replaced by the `"0"` default, so the run succeeds with memory `0`. -/
theorem empty_valued_field_is_defaulted :
    matchStartCI "memory".data "memory:".data = true ∧
    extractValue ["memory:".data] "memory".data = [] ∧
    pyInt (extractValue ["memory:".data] "memory".data) = none ∧
    parse_vm_configs [("100.conf".data, ["memory:".data])] =
      some ([⟨"100".data, "(no name)".data, 0, 1, 0, []⟩], 0, 0, 1) := by decide

/-- C9 (amended): a numeric field whose extracted value is non-empty and
does not parse as an integer aborts the file's parse, and one aborted
file aborts the whole parser run; an absent field — or one whose
extracted value is empty — is defaulted instead. -/
theorem malformed_nonempty_field_aborts :
    (∀ fn L, extractValue L "memory".data ≠ [] →
      pyInt (extractValue L "memory".data) = none → perFileVM fn L = none) ∧
    (∀ fn L, extractValue L "cores".data ≠ [] →
      pyInt (extractValue L "cores".data) = none → perFileVM fn L = none) ∧
    (∀ fn L, extractValue L "memory".data ≠ [] →
      pyInt (extractValue L "memory".data) = none → perFileLXC fn L = none) ∧
    (∀ fn L, extractValue L "cores".data ≠ [] →
      pyInt (extractValue L "cores".data) = none → perFileLXC fn L = none) ∧
    (∀ fn L, extractValue L "swap".data ≠ [] →
      pyInt (extractValue L "swap".data) = none → perFileLXC fn L = none) ∧
    (∀ fs, (∃ f ∈ fs, perFileVM f.1 f.2 = none) →
      parse_vm_configs fs = none) ∧
    (∀ fs, (∃ f ∈ fs, perFileLXC f.1 f.2 = none) →
      parse_lxc_configs fs = none) := by
  refine ⟨?_, ?_, ?_, ?_, ?_, ?_, ?_⟩
  · intro fn L h1 h2
    simp [perFileVM, orDefault, h1, h2]
  · intro fn L h1 h2
    rcases hm : pyInt (orDefault (extractValue L "memory".data) "0".data) with _ | mv
    · simp [perFileVM, hm]
    · simp [perFileVM, hm, orDefault, h1, h2]
  · intro fn L h1 h2
    simp [perFileLXC, orDefault, h1, h2]
  · intro fn L h1 h2
    rcases hm : pyInt (orDefault (extractValue L "memory".data) "0".data) with _ | mv
    · simp [perFileLXC, hm]
    · simp [perFileLXC, hm, orDefault, h1, h2]
  · intro fn L h1 h2
    rcases hm : pyInt (orDefault (extractValue L "memory".data) "0".data) with _ | mv
    · simp [perFileLXC, hm]
    rcases hc : pyInt (orDefault (extractValue L "cores".data) "1".data) with _ | cv
    · simp [perFileLXC, hm, hc]
    · simp [perFileLXC, hm, hc, orDefault, h1, h2]
  · intro fs h
    induction fs with
    | nil => simp at h
    | cons f rest ih =>
      obtain ⟨g, hg, hnone⟩ := h
      rcases List.mem_cons.mp hg with hgf | hgr
      · subst hgf; simp [parse_vm_configs, hnone]
      · have hrest := ih ⟨g, hgr, hnone⟩
        cases hp : perFileVM f.1 f.2 with
        | none => simp [parse_vm_configs, hp]
        | some r => simp [parse_vm_configs, hp, hrest]
  · intro fs h
    induction fs with
    | nil => simp at h
    | cons f rest ih =>
      obtain ⟨g, hg, hnone⟩ := h
      rcases List.mem_cons.mp hg with hgf | hgr
      · subst hgf; simp [parse_lxc_configs, hnone]
      · have hrest := ih ⟨g, hgr, hnone⟩
        cases hp : perFileLXC f.1 f.2 with
        | none => simp [parse_lxc_configs, hp]
        | some r => simp [parse_lxc_configs, hp, hrest]

/-- Witness for C9 at concrete malformed fields. -/
theorem malformed_nonempty_field_aborts_witness :
    perFileVM "100.conf".data ["memory: abc".data] = none ∧
    perFileVM "100.conf".data ["cores: 2x".data] = none ∧
    perFileLXC "200.conf".data ["memory: abc".data] = none ∧
    perFileLXC "200.conf".data ["cores: 2x".data] = none ∧
    perFileLXC "200.conf".data ["swap: 1.5".data] = none ∧
    parse_vm_configs [("100.conf".data, ["memory: abc".data])] = none ∧
    parse_lxc_configs [("200.conf".data, ["swap: 1.5".data])] = none := by
  refine ⟨?_, ?_, ?_, ?_, ?_, ?_, ?_⟩
  · exact malformed_nonempty_field_aborts.1 "100.conf".data
      ["memory: abc".data] (by decide) (by decide)
  · exact malformed_nonempty_field_aborts.2.1 "100.conf".data
      ["cores: 2x".data] (by decide) (by decide)
  · exact malformed_nonempty_field_aborts.2.2.1 "200.conf".data
      ["memory: abc".data] (by decide) (by decide)
  · exact malformed_nonempty_field_aborts.2.2.2.1 "200.conf".data
      ["cores: 2x".data] (by decide) (by decide)
  · exact malformed_nonempty_field_aborts.2.2.2.2.1 "200.conf".data
      ["swap: 1.5".data] (by decide) (by decide)
  · exact malformed_nonempty_field_aborts.2.2.2.2.2.1
      [("100.conf".data, ["memory: abc".data])]
      ⟨("100.conf".data, ["memory: abc".data]), by decide, by decide⟩
  · exact malformed_nonempty_field_aborts.2.2.2.2.2.2
      [("200.conf".data, ["swap: 1.5".data])]
      ⟨("200.conf".data, ["swap: 1.5".data]), by decide, by decide⟩

theorem parseArgsGo_pairs (pairs : List (Chars × Chars)) :
    ∀ out, (∀ p ∈ pairs, p.1 = "-o".data ∨ p.1 = "--outfile".data) →
      parseArgsGo out (pairs.flatMap (fun p => [p.1, p.2])) =
        some ((pairs.map Prod.snd).getLastD out) := by
  induction pairs with
  | nil => intro out _; rfl
  | cons p rest ih =>
    intro out h
    have hp := h p (by simp)
    have hrest := ih p.2 (fun g hg => h g (by simp [hg]))
    rw [List.flatMap_cons, List.map_cons, List.getLastD_cons]
    have hstep : parseArgsGo out ([p.1, p.2] ++ rest.flatMap (fun q => [q.1, q.2])) =
        parseArgsGo p.2 (rest.flatMap (fun q => [q.1, q.2])) := by
      simp only [List.cons_append, List.nil_append, parseArgsGo]
      rw [if_pos hp]
      simp
    rw [hstep]; exact hrest

/-- C10: an argument list made of repeated `-o <path>` / `--outfile
<path>` pairs is accepted (no usage exit) and the last pair's path
wins. -/
theorem repeated_outfile_flags_last_wins (pairs : List (Chars × Chars))
    (h : ∀ p ∈ pairs, p.1 = "-o".data ∨ p.1 = "--outfile".data) :
    parse_args (pairs.flatMap (fun p => [p.1, p.2])) =
      some ((pairs.map Prod.snd).getLastD []) :=
  parseArgsGo_pairs pairs [] h

/-- Witness for C10: `-o a --outfile b` parses to outfile `b`. -/
theorem repeated_outfile_flags_last_wins_witness :
    parse_args ["-o".data, "a".data, "--outfile".data, "b".data] =
      some "b".data := by
  simpa using repeated_outfile_flags_last_wins
    [("-o".data, "a".data), ("--outfile".data, "b".data)] (by decide)

end ProxUsage
